import Mathlib

/-!
Verification of the signing-service core: a shallow embedding of the
signature-device service (device creation, chained signing, in-memory
device storage) together with theorems checking the specification's
claims against it.

Modelling conventions:
- Go byte strings are `List Nat` (one entry per byte).
- Go pointers (`*SignatureDevice`) are indices into an explicit heap
  (`SysState.heap`), so aliasing between the storage map and values
  handed out to callers is represented faithfully.
- The Go map `map[string]*SignatureDevice` is an association list with
  unique keys; `mapInsert` models `m[k] = v`, which replaces in place.
- The pluggable `crypto.Signer` is an abstract function
  `List Nat → Option (List Nat)` (`none` models a signing error), and
  key generation is an abstract environment (`KeyGenEnv`), since the
  RSA/ECDSA primitives draw randomness and are outside the core.
- `fmt.Sprintf("%d_%s_%s", counter, data, lastSig)` is rendered by
  `intToDecimal` and list concatenation with byte 95 (underscore).
- The signature counter (Go `int`) is modelled as `Int` with plain
  increment; the counter only ever moves from 0 upward one step per
  successful sign, so 64-bit overflow is unreachable in any run the
  claims quantify over.
-/

namespace SigningService

/-- A Go byte string: one `Nat` per byte. -/
abbrev GoStr := List Nat

/-- The byte value of the underscore separator used in signed payloads. -/
def usep : Nat := 95

/-- The standard base64 alphabet (`A-Z`, `a-z`, `0-9`, `+`, `/`) as bytes. -/
def b64alphabet : GoStr :=
  [65, 66, 67, 68, 69, 70, 71, 72, 73, 74, 75, 76, 77, 78, 79, 80, 81, 82,
   83, 84, 85, 86, 87, 88, 89, 90,
   97, 98, 99, 100, 101, 102, 103, 104, 105, 106, 107, 108, 109, 110, 111,
   112, 113, 114, 115, 116, 117, 118, 119, 120, 121, 122,
   48, 49, 50, 51, 52, 53, 54, 55, 56, 57, 43, 47]

/-- Byte of the base64 alphabet at index `n` (`n < 64` in every use). -/
def b64idx (n : Nat) : Nat := b64alphabet.getD n 0

/-- `base64.StdEncoding.EncodeToString`: standard base64 with `=` padding
(byte 61), processing the input three bytes at a time. -/
def base64Encode : GoStr → GoStr
  | [] => []
  | [b1] => [b64idx (b1 / 4), b64idx (b1 % 4 * 16), 61, 61]
  | [b1, b2] => [b64idx (b1 / 4), b64idx (b1 % 4 * 16 + b2 / 16),
                 b64idx (b2 % 16 * 4), 61]
  | b1 :: b2 :: b3 :: rest =>
      b64idx (b1 / 4) :: b64idx (b1 % 4 * 16 + b2 / 16) ::
      b64idx (b2 % 16 * 4 + b3 / 64) :: b64idx (b3 % 64) :: base64Encode rest

/-- Decimal digits of `n`, most significant first, as ASCII bytes; empty for
`n = 0`. The fuel argument only drives structural recursion and is always
large enough (`n` divisions by 10 reach 0 well within `fuel ≥ n`). -/
def natToDecimalAux : Nat → Nat → GoStr
  | 0, _ => []
  | fuel + 1, n => if n = 0 then [] else natToDecimalAux fuel (n / 10) ++ [48 + n % 10]

/-- Decimal rendering of a natural number as ASCII bytes (`%d` for `n ≥ 0`). -/
def natToDecimal (n : Nat) : GoStr :=
  if n = 0 then [48] else natToDecimalAux (n + 1) n

/-- `fmt.Sprintf("%d", i)` for a Go integer: minus sign (byte 45) then the
decimal digits for negative values, plain digits otherwise. -/
def intToDecimal : Int → GoStr
  | .ofNat n => natToDecimal n
  | .negSucc n => 45 :: natToDecimal (n + 1)

/-- The behaviour of a bound `crypto.Signer`: payload bytes to signature
bytes, `none` modelling a signing error. -/
abbrev SignerFn := GoStr → Option GoStr

/-- `model.SignatureDevice`: the unit of signing identity. `PublicKey` and
`PrivateKey` are `interface{}` in the source and opaque here. -/
structure SignatureDevice where
  ID : GoStr
  Label : GoStr
  Algorithm : GoStr
  SignatureCounter : Int
  LastSignature : GoStr
  PublicKey : Nat
  PrivateKey : Nat
  Signer : SignerFn

instance : Inhabited SignatureDevice :=
  ⟨⟨[], [], [], 0, [], 0, 0, fun _ => none⟩⟩

/-- The shared mutable state: a heap of device records (Go pointers are
indices into it) and the storage map from device id to pointer. -/
structure SysState where
  heap : List SignatureDevice
  store : List (GoStr × Nat)

/-- The empty storage state (`NewInMemoryStorage`). -/
def emptyState : SysState := ⟨[], []⟩

/-- Dereference a device pointer (every pointer in use is in bounds). -/
def deref (σ : SysState) (p : Nat) : SignatureDevice :=
  σ.heap.getD p default

/-- Go map lookup `m[k]` on the association list. -/
def mapLookup : List (GoStr × Nat) → GoStr → Option Nat
  | [], _ => none
  | (k₁, v) :: rest, k => if k₁ = k then some v else mapLookup rest k

/-- Go map assignment `m[k] = v`: replaces the binding in place if the key
is present, otherwise adds it. -/
def mapInsert : List (GoStr × Nat) → GoStr → Nat → List (GoStr × Nat)
  | [], k, v => [(k, v)]
  | (k₁, v₁) :: rest, k, v =>
      if k₁ = k then (k, v) :: rest else (k₁, v₁) :: mapInsert rest k v

/-- Errors surfaced by `persistence.InMemoryStorage`. -/
inductive StorageError where
  | alreadyExists
  | notFound
deriving DecidableEq, Repr

namespace InMemoryStorage

/-- `InMemoryStorage.Save`: persists a new device; errors with
`alreadyExists` when the device's id is already present (no overwrite). -/
def Save (σ : SysState) (p : Nat) : Except StorageError SysState :=
  if (mapLookup σ.store (deref σ p).ID).isSome then
    .error .alreadyExists
  else
    .ok { σ with store := mapInsert σ.store (deref σ p).ID p }

/-- `InMemoryStorage.Update`: overwrites the binding for the device's id
(creates it when absent); never fails. -/
def Update (σ : SysState) (p : Nat) : Except StorageError SysState :=
  .ok { σ with store := mapInsert σ.store (deref σ p).ID p }

/-- `InMemoryStorage.GetDevice`: returns the stored pointer for `id`, or
`notFound`. Read-only by construction. -/
def GetDevice (σ : SysState) (id : GoStr) : Except StorageError Nat :=
  match mapLookup σ.store id with
  | some p => .ok p
  | none => .error .notFound

/-- `InMemoryStorage.GetAllDevices`: builds a fresh slice and appends the
stored device pointers to it; never fails (empty list when no devices). -/
def GetAllDevices (σ : SysState) : List Nat :=
  σ.store.foldl (fun acc kv => acc ++ [kv.2]) []

end InMemoryStorage

/-- A caller of the storage layer writing through a returned device
pointer: `device.Label = l`. Used to examine aliasing between returned
pointers and stored records. -/
def writeLabelThrough (σ : SysState) (p : Nat) (l : GoStr) : SysState :=
  { σ with heap := σ.heap.set p { deref σ p with Label := l } }

/-- Errors surfaced by `domain.SignatureDeviceService` (the source wraps
them as `fmt.Errorf` strings; here only the kind is kept). -/
inductive ServiceError where
  | invalidAlgorithm
  | keyGenerationFailed
  | saveFailed (e : StorageError)
  | deviceNotFound
  | signingFailed
  | updateFailed (e : StorageError)
deriving DecidableEq, Repr

/-- `model.CreateDeviceOptions`. -/
structure CreateDeviceOptions where
  ID : GoStr
  Label : GoStr
  Algorithm : GoStr

/-- `model.SignDataOptions`. -/
structure SignDataOptions where
  DeviceID : GoStr
  Data : GoStr

/-- `model.SignDataResponse`: base64 signature and the exact signed payload. -/
structure SignDataResponse where
  Signature : GoStr
  SignedData : GoStr
deriving DecidableEq, Repr

/-- An opaque generated key pair (`interface{}` key material in the source). -/
structure KeyPair where
  Public : Nat
  Private : Nat

/-- The key-generation and signer-construction environment:
`RSAGenerator.Generate` / `ECCGenerator.Generate` (which may fail, hence
`Option`) and `NewRSASigner` / `NewECDSASigner` binding a private key to a
signing function. -/
structure KeyGenEnv where
  rsaGenerate : Option KeyPair
  eccGenerate : Option KeyPair
  newRSASigner : Nat → SignerFn
  newECDSASigner : Nat → SignerFn

/-- The bytes of the string literal `"RSA"`. -/
def strRSA : GoStr := [82, 83, 65]

/-- The bytes of the string literal `"ECC"`. -/
def strECC : GoStr := [69, 67, 67]

/-- `SignatureDeviceService.CreateDevice`: validates the algorithm,
generates a key pair and signer, initializes the counter to 0 and the last
signature to `base64(id)`, allocates the device and persists it via
`Save`. Returns the device pointer and the state after the call (on
failure the storage map is untouched; a failed `Save` still leaves the
freshly allocated record on the heap as garbage, as in Go). -/
def CreateDevice (env : KeyGenEnv) (σ : SysState) (opts : CreateDeviceOptions) :
    Except ServiceError Nat × SysState :=
  if ¬(opts.Algorithm = strRSA ∨ opts.Algorithm = strECC) then
    (.error .invalidAlgorithm, σ)
  else
    let gen : Option (Nat × Nat × SignerFn) :=
      if opts.Algorithm = strRSA then
        match env.rsaGenerate with
        | none => none
        | some kp => some (kp.Private, kp.Public, env.newRSASigner kp.Private)
      else
        match env.eccGenerate with
        | none => none
        | some kp => some (kp.Private, kp.Public, env.newECDSASigner kp.Private)
    match gen with
    | none => (.error .keyGenerationFailed, σ)
    | some (priv, pub, signer) =>
      let initialSignature := base64Encode opts.ID
      let device : SignatureDevice :=
        { ID := opts.ID, Label := opts.Label, Algorithm := opts.Algorithm,
          SignatureCounter := 0, LastSignature := initialSignature,
          PublicKey := pub, PrivateKey := priv, Signer := signer }
      let p := σ.heap.length
      let σ₁ : SysState := { σ with heap := σ.heap ++ [device] }
      match InMemoryStorage.Save σ₁ p with
      | .error e => (.error (.saveFailed e), σ₁)
      | .ok σ₂ => (.ok p, σ₂)

/-- `SignatureDeviceService.SignData` (body of the critical section):
loads the device, builds the chained payload from the pre-increment
counter, signs it, and only on success increments the counter, replaces
the last signature and persists via `Update`. The mutex serializing
concurrent calls is modelled separately (`CStep`). -/
def SignData (σ : SysState) (opts : SignDataOptions) :
    Except ServiceError SignDataResponse × SysState :=
  match InMemoryStorage.GetDevice σ opts.DeviceID with
  | .error _ => (.error .deviceNotFound, σ)
  | .ok p =>
    let device := deref σ p
    let counter := device.SignatureCounter
    let dataToBeSigned :=
      intToDecimal counter ++ [usep] ++ opts.Data ++ [usep] ++ device.LastSignature
    match device.Signer dataToBeSigned with
    | none => (.error .signingFailed, σ)
    | some signature =>
      let signatureB64 := base64Encode signature
      let device₂ :=
        { device with SignatureCounter := counter + 1, LastSignature := signatureB64 }
      let σ₁ : SysState := { σ with heap := σ.heap.set p device₂ }
      match InMemoryStorage.Update σ₁ p with
      | .error e => (.error (.updateFailed e), σ₁)
      | .ok σ₂ => (.ok ⟨signatureB64, dataToBeSigned⟩, σ₂)

/-- `SignatureDeviceService.GetDevice`: pass-through read. -/
def GetDeviceService (σ : SysState) (id : GoStr) : Except ServiceError Nat :=
  match InMemoryStorage.GetDevice σ id with
  | .error _ => .error .deviceNotFound
  | .ok p => .ok p

/-- N sequential `SignData` calls on one device id, collecting each call's
result and threading the state. -/
def signN (σ : SysState) (id : GoStr) :
    List GoStr → List (Except ServiceError SignDataResponse) × SysState
  | [] => ([], σ)
  | data :: rest =>
    let r := SignData σ ⟨id, data⟩
    let rs := signN r.2 id rest
    (r.1 :: rs.1, rs.2)

/-- Device-local reference of the signing loop: what `SignData` does to a
single device record, one call per list entry (used to relate `signN` on a
single-device state to a pure fold over the record). -/
def signChain (d : SignatureDevice) :
    List GoStr → List (Except ServiceError SignDataResponse) × SignatureDevice
  | [] => ([], d)
  | data :: rest =>
    let payload :=
      intToDecimal d.SignatureCounter ++ [usep] ++ data ++ [usep] ++ d.LastSignature
    match d.Signer payload with
    | none =>
      let rs := signChain d rest
      (.error .signingFailed :: rs.1, rs.2)
    | some s =>
      let d₂ := { d with SignatureCounter := d.SignatureCounter + 1,
                         LastSignature := base64Encode s }
      let rs := signChain d₂ rest
      (.ok ⟨base64Encode s, payload⟩ :: rs.1, rs.2)

/-- The device record after one successful sign with signature bytes `s`:
counter incremented by exactly one, last signature replaced by the base64
encoding of `s`, all other fields untouched. -/
def bump (d : SignatureDevice) (s : GoStr) : SignatureDevice :=
  { d with SignatureCounter := d.SignatureCounter + 1,
           LastSignature := base64Encode s }

/-- Result list indexing, total (`deviceNotFound` as the out-of-range
placeholder; every use is in range). -/
def respAt (rs : List (Except ServiceError SignDataResponse)) (k : Nat) :
    Except ServiceError SignDataResponse :=
  rs.getD k (.error .deviceNotFound)

/-- Projection of a successful result (every use is on an `ok`). -/
def okResp : Except ServiceError SignDataResponse → SignDataResponse
  | .ok r => r
  | .error _ => ⟨[], []⟩

/-- The base64 signature returned by the `k`-th call. -/
def sigAt (rs : List (Except ServiceError SignDataResponse)) (k : Nat) : GoStr :=
  (okResp (respAt rs k)).Signature

/-- The signed payload returned by the `k`-th call. -/
def payAt (rs : List (Except ServiceError SignDataResponse)) (k : Nat) : GoStr :=
  (okResp (respAt rs k)).SignedData

/-- Whether a call result is a success. -/
def isOk : Except ServiceError SignDataResponse → Prop
  | .ok _ => True
  | .error _ => False

instance (r : Except ServiceError SignDataResponse) : Decidable (isOk r) :=
  match r with
  | .ok _ => isTrue trivial
  | .error _ => isFalse id

/-!
Interleaving model of concurrent `SignData` calls.

`SignData` holds the service-wide `sync.Mutex` from before the device
read until after the `Update` persist. A concurrent execution is modelled
as a transition system: each thread runs one `SignData` call, split into
the two atomic halves of the critical section — acquiring the lock
together with the read/sign half (`readPhase`), and the write/persist
half followed by the release (`commitSys`). The lock forbids any other
thread from entering between a thread's two halves, which is exactly the
discipline the source's mutex enforces; the scheduler (the choice of the
next step) is otherwise unconstrained.
-/

/-- Per-thread progress through its single `SignData` call: not yet
started; holding the lock after the read/sign half (device pointer,
payload, base64 signature as locals); or finished with the call's result. -/
inductive ThreadPhase where
  | start
  | mid (p : Nat) (payload : GoStr) (sigB64 : GoStr)
  | done (resp : Except ServiceError SignDataResponse)

/-- Whether a phase is the in-critical-section one. -/
def holdsLock : ThreadPhase → Prop
  | .mid _ _ _ => True
  | _ => False

instance (ph : ThreadPhase) : Decidable (holdsLock ph) :=
  match ph with
  | .mid _ _ _ => isTrue trivial
  | .start => isFalse id
  | .done _ => isFalse id

/-- The read/sign half of `SignData`: load the device, build the payload
from the pre-increment counter, sign. Failures finish the call (and the
deferred unlock releases the lock); success keeps the locals for the
write half. -/
def readPhase (σ : SysState) (devId data : GoStr) : ThreadPhase :=
  match InMemoryStorage.GetDevice σ devId with
  | .error _ => .done (.error .deviceNotFound)
  | .ok p =>
    let device := deref σ p
    let payload :=
      intToDecimal device.SignatureCounter ++ [usep] ++ data ++ [usep] ++ device.LastSignature
    match device.Signer payload with
    | none => .done (.error .signingFailed)
    | some s => .mid p payload (base64Encode s)

/-- The write/persist half of `SignData`: increment the counter and set
the last signature through the device pointer, then `Update`. -/
def commitSys (σ : SysState) (p : Nat) (sigB64 : GoStr) : SysState :=
  let device := deref σ p
  let device₂ :=
    { device with SignatureCounter := device.SignatureCounter + 1,
                  LastSignature := sigB64 }
  let σ₁ : SysState := { σ with heap := σ.heap.set p device₂ }
  match InMemoryStorage.Update σ₁ p with
  | .error _ => σ₁
  | .ok σ₂ => σ₂

/-- The global state of a run of `n` concurrent `SignData` calls on the
device id `devId`: the shared storage state, the service mutex (`none` =
free), and every thread's phase. -/
structure CState (n : Nat) where
  sys : SysState
  lock : Option (Fin n)
  threads : Fin n → ThreadPhase

/-- One scheduler step. `acquire`: a not-yet-started thread takes the free
lock and runs the read/sign half (on failure it finishes and the lock is
released at once). `commit`: the lock holder runs the write/persist half,
publishes its result and releases the lock. -/
inductive CStep {n : Nat} (devId : GoStr) (data : Fin n → GoStr) :
    CState n → CState n → Prop where
  | acquire (i : Fin n) (s : CState n)
      (hl : s.lock = none) (ht : s.threads i = .start) :
      CStep devId data s
        { sys := s.sys,
          lock := if holdsLock (readPhase s.sys devId (data i)) then some i else none,
          threads := Function.update s.threads i (readPhase s.sys devId (data i)) }
  | commit (i : Fin n) (s : CState n) (p : Nat) (payload sigB64 : GoStr)
      (hl : s.lock = some i) (ht : s.threads i = .mid p payload sigB64) :
      CStep devId data s
        { sys := commitSys s.sys p sigB64,
          lock := none,
          threads := Function.update s.threads i (.done (.ok ⟨sigB64, payload⟩)) }

/-- Initial state of a concurrent run against a freshly stored device. -/
def initCState (n : Nat) (d : SignatureDevice) : CState n :=
  ⟨⟨[d], [(d.ID, 0)]⟩, none, fun _ => .start⟩

/-- All `n` calls have completed. -/
def allDone {n : Nat} (s : CState n) : Prop :=
  ∀ i, ∃ r, s.threads i = .done r

/-- A concrete key-generation environment (both generators succeed and
the built signers always return fixed bytes), used to evaluate the
theorems on concrete inputs. -/
def envW : KeyGenEnv :=
  ⟨some ⟨1, 2⟩, some ⟨3, 4⟩, fun _ => fun _ => some [7], fun _ => fun _ => some [8]⟩

/-- The device record `commitSys` writes back: counter incremented by
one, last signature replaced by the already-encoded base64 signature. -/
def commitDevice (d : SignatureDevice) (sig : GoStr) : SignatureDevice :=
  { d with SignatureCounter := d.SignatureCounter + 1, LastSignature := sig }

/-- Run invariant for `n` concurrent `SignData` calls on one fresh device:
the storage always holds exactly the one device record; the device's
counter equals the number of completed calls; the completed calls, listed
in completion order, carry the embedded counters 0, 1, 2, … in that
order; and the lock discipline holds — when the lock is free no thread is
inside the critical section, and when thread `i` holds it, `i`'s locals
were read from the current device state and nobody else is inside. -/
def Inv {n : Nat} (devId : GoStr) (data : Fin n → GoStr) (sf : GoStr → GoStr)
    (s : CState n) : Prop :=
  ∃ d : SignatureDevice, ∃ order : List (Fin n),
    s.sys = ⟨[d], [(devId, 0)]⟩ ∧
    d.ID = devId ∧
    d.Signer = (fun x => some (sf x)) ∧
    d.SignatureCounter = (order.length : Int) ∧
    order.Nodup ∧
    (∀ i : Fin n, (∃ r, s.threads i = .done r) ↔ i ∈ order) ∧
    (∀ m : Nat, ∀ hm : m < order.length, ∃ tl : GoStr,
      s.threads (order.get ⟨m, hm⟩) =
        .done (.ok ⟨base64Encode (sf (intToDecimal (m : Int) ++ [usep] ++
                      data (order.get ⟨m, hm⟩) ++ [usep] ++ tl)),
                    intToDecimal (m : Int) ++ [usep] ++
                      data (order.get ⟨m, hm⟩) ++ [usep] ++ tl⟩)) ∧
    (match s.lock with
     | none => ∀ j : Fin n, ¬ holdsLock (s.threads j)
     | some i =>
        s.threads i = .mid 0
          (intToDecimal d.SignatureCounter ++ [usep] ++ data i ++ [usep] ++
            d.LastSignature)
          (base64Encode (sf (intToDecimal d.SignatureCounter ++ [usep] ++ data i ++
            [usep] ++ d.LastSignature))) ∧
        ∀ j : Fin n, holdsLock (s.threads j) → j = i)

end SigningService

namespace SigningService

theorem mapLookup_append (m₁ m₂ : List (GoStr × Nat)) (k : GoStr) :
    mapLookup (m₁ ++ m₂) k =
      match mapLookup m₁ k with
      | some v => some v
      | none => mapLookup m₂ k := by
  induction m₁ with
  | nil => simp [mapLookup]
  | cons kv rest ih =>
    obtain ⟨k₁, v₁⟩ := kv
    by_cases h : k₁ = k <;> simp [mapLookup, h, ih]

theorem mapInsert_of_absent (m : List (GoStr × Nat)) (k : GoStr) (v : Nat)
    (h : mapLookup m k = none) : mapInsert m k v = m ++ [(k, v)] := by
  induction m with
  | nil => simp [mapInsert]
  | cons kv rest ih =>
    obtain ⟨k₁, v₁⟩ := kv
    by_cases hk : k₁ = k
    · simp [mapLookup, hk] at h
    · simp [mapLookup, hk] at h
      simp [mapInsert, hk, ih h]

theorem getD_concat {α : Type} (h : List α) (d x : α) :
    (h ++ [d]).getD h.length x = d := by
  induction h with
  | nil => rfl
  | cons a rest ih => exact ih

theorem getD_append_lt {α : Type} (h l : List α) (p : Nat) (x : α)
    (hp : p < h.length) : (h ++ l).getD p x = h.getD p x := by
  induction h generalizing p with
  | nil => simp at hp
  | cons a rest ih =>
    cases p with
    | zero => rfl
    | succ q => simpa [List.getD] using ih q (by simpa using hp)

/-- The device record `CreateDevice` builds before persisting. -/
def mkDevice (opts : CreateDeviceOptions) (pub priv : Nat) (sgn : SignerFn) :
    SignatureDevice :=
  { ID := opts.ID, Label := opts.Label, Algorithm := opts.Algorithm,
    SignatureCounter := 0, LastSignature := base64Encode opts.ID,
    PublicKey := pub, PrivateKey := priv, Signer := sgn }

theorem createDevice_rsa_ok (env : KeyGenEnv) (σ : SysState) (opts : CreateDeviceOptions)
    (kp : KeyPair) (halg : opts.Algorithm = strRSA) (hgen : env.rsaGenerate = some kp)
    (habs : mapLookup σ.store opts.ID = none) :
    CreateDevice env σ opts =
      (.ok σ.heap.length,
       ⟨σ.heap ++ [mkDevice opts kp.Public kp.Private (env.newRSASigner kp.Private)],
        σ.store ++ [(opts.ID, σ.heap.length)]⟩) := by
  simp [CreateDevice, halg, hgen, InMemoryStorage.Save, deref, getD_concat, habs,
        mapInsert_of_absent _ _ _ habs, mkDevice]

theorem createDevice_ecc_ok (env : KeyGenEnv) (σ : SysState) (opts : CreateDeviceOptions)
    (kp : KeyPair) (halg : opts.Algorithm = strECC) (hgen : env.eccGenerate = some kp)
    (habs : mapLookup σ.store opts.ID = none) :
    CreateDevice env σ opts =
      (.ok σ.heap.length,
       ⟨σ.heap ++ [mkDevice opts kp.Public kp.Private (env.newECDSASigner kp.Private)],
        σ.store ++ [(opts.ID, σ.heap.length)]⟩) := by
  simp [CreateDevice, halg, show (strECC = strRSA) = False from by decide, hgen,
        InMemoryStorage.Save, deref, getD_concat, habs,
        mapInsert_of_absent _ _ _ habs, mkDevice]

theorem createDevice_rsa_dup (env : KeyGenEnv) (σ : SysState) (opts : CreateDeviceOptions)
    (kp : KeyPair) (q : Nat) (halg : opts.Algorithm = strRSA)
    (hgen : env.rsaGenerate = some kp) (hdup : mapLookup σ.store opts.ID = some q) :
    CreateDevice env σ opts =
      (.error (.saveFailed .alreadyExists),
       ⟨σ.heap ++ [mkDevice opts kp.Public kp.Private (env.newRSASigner kp.Private)],
        σ.store⟩) := by
  simp [CreateDevice, halg, hgen, InMemoryStorage.Save, deref, getD_concat, hdup, mkDevice]

theorem createDevice_ecc_dup (env : KeyGenEnv) (σ : SysState) (opts : CreateDeviceOptions)
    (kp : KeyPair) (q : Nat) (halg : opts.Algorithm = strECC)
    (hgen : env.eccGenerate = some kp) (hdup : mapLookup σ.store opts.ID = some q) :
    CreateDevice env σ opts =
      (.error (.saveFailed .alreadyExists),
       ⟨σ.heap ++ [mkDevice opts kp.Public kp.Private (env.newECDSASigner kp.Private)],
        σ.store⟩) := by
  simp [CreateDevice, halg, show (strECC = strRSA) = False from by decide, hgen,
        InMemoryStorage.Save, deref, getD_concat, hdup, mkDevice]

theorem createDevice_rsa_genfail (env : KeyGenEnv) (σ : SysState) (opts : CreateDeviceOptions)
    (halg : opts.Algorithm = strRSA) (hgen : env.rsaGenerate = none) :
    CreateDevice env σ opts = (.error .keyGenerationFailed, σ) := by
  simp [CreateDevice, halg, hgen]

theorem createDevice_ecc_genfail (env : KeyGenEnv) (σ : SysState) (opts : CreateDeviceOptions)
    (halg : opts.Algorithm = strECC) (hgen : env.eccGenerate = none) :
    CreateDevice env σ opts = (.error .keyGenerationFailed, σ) := by
  simp [CreateDevice, halg, show (strECC = strRSA) = False from by decide, hgen]

theorem createDevice_invalid (env : KeyGenEnv) (σ : SysState) (opts : CreateDeviceOptions)
    (halg : ¬(opts.Algorithm = strRSA ∨ opts.Algorithm = strECC)) :
    CreateDevice env σ opts = (.error .invalidAlgorithm, σ) := by
  simp [CreateDevice, halg]

theorem createDevice_ok_inv (env : KeyGenEnv) (σ : SysState) (opts : CreateDeviceOptions)
    (p : Nat) (h : (CreateDevice env σ opts).1 = .ok p) :
    p = σ.heap.length ∧ mapLookup σ.store opts.ID = none ∧
    ∃ pub priv sgn,
      (CreateDevice env σ opts).2 =
        ⟨σ.heap ++ [mkDevice opts pub priv sgn],
         σ.store ++ [(opts.ID, σ.heap.length)]⟩ := by
  by_cases halg : opts.Algorithm = strRSA ∨ opts.Algorithm = strECC
  · rcases halg with h1 | h1
    · cases hgen : env.rsaGenerate with
      | none => rw [createDevice_rsa_genfail env σ opts h1 hgen] at h; simp at h
      | some kp =>
        cases habs : mapLookup σ.store opts.ID with
        | none =>
          rw [createDevice_rsa_ok env σ opts kp h1 hgen habs] at h ⊢
          simp at h
          exact ⟨h.symm, rfl, _, _, _, rfl⟩
        | some q => rw [createDevice_rsa_dup env σ opts kp q h1 hgen habs] at h; simp at h
    · cases hgen : env.eccGenerate with
      | none => rw [createDevice_ecc_genfail env σ opts h1 hgen] at h; simp at h
      | some kp =>
        cases habs : mapLookup σ.store opts.ID with
        | none =>
          rw [createDevice_ecc_ok env σ opts kp h1 hgen habs] at h ⊢
          simp at h
          exact ⟨h.symm, rfl, _, _, _, rfl⟩
        | some q => rw [createDevice_ecc_dup env σ opts kp q h1 hgen habs] at h; simp at h
  · rw [createDevice_invalid env σ opts halg] at h; simp at h

end SigningService

namespace SigningService

/-- Claim C7: a `createDevice` call whose algorithm is neither `RSA` nor
`ECC` fails with `InvalidAlgorithm`, generates no key pair (the outcome is
the same for every key-generation environment) and persists nothing (the
state is returned untouched). -/
theorem claim_C7_invalid_algorithm (env : KeyGenEnv) (σ : SysState)
    (opts : CreateDeviceOptions)
    (halg : ¬(opts.Algorithm = strRSA ∨ opts.Algorithm = strECC)) :
    CreateDevice env σ opts = (.error .invalidAlgorithm, σ) :=
  createDevice_invalid env σ opts halg

/-- Witness for C7 at the concrete algorithm string `"DSA"`. -/
theorem claim_C7_witness :
    ¬([68, 83, 65] = strRSA ∨ [68, 83, 65] = strECC) ∧
    CreateDevice
      envW
      emptyState ⟨[100], [], [68, 83, 65]⟩ =
      (.error .invalidAlgorithm, emptyState) :=
  ⟨by decide,
   claim_C7_invalid_algorithm envW emptyState ⟨[100], [], [68, 83, 65]⟩ (by decide)⟩

/-- Claim C5: every successful `createDevice` call yields a device whose
stored `signatureCounter` is 0 and whose stored `lastSignature` is the
base64 encoding of the device's own id (the genesis chain value). -/
theorem claim_C5_genesis_state (env : KeyGenEnv) (σ : SysState)
    (opts : CreateDeviceOptions) (p : Nat)
    (h : (CreateDevice env σ opts).1 = .ok p) :
    (deref (CreateDevice env σ opts).2 p).SignatureCounter = 0 ∧
    (deref (CreateDevice env σ opts).2 p).LastSignature = base64Encode opts.ID := by
  obtain ⟨hp, habs, pub, priv, sgn, hσ⟩ := createDevice_ok_inv env σ opts p h
  rw [hσ, hp]
  simp [deref, getD_concat, mkDevice]

/-- Witness for C5 on a concrete RSA device `"d1"`. -/
theorem claim_C5_witness :
    (CreateDevice
      envW
      emptyState ⟨[100, 49], [76], strRSA⟩).1 = .ok 0 ∧
    (deref (CreateDevice
      envW
      emptyState ⟨[100, 49], [76], strRSA⟩).2 0).SignatureCounter = 0 ∧
    (deref (CreateDevice
      envW
      emptyState ⟨[100, 49], [76], strRSA⟩).2 0).LastSignature =
      base64Encode [100, 49] :=
  ⟨rfl, claim_C5_genesis_state envW emptyState ⟨[100, 49], [76], strRSA⟩ 0 rfl⟩

/-- Claim C3: when the bound signer fails inside `signData`, the call
fails with `SigningFailed` and performs no state mutation at all — the
returned state is exactly the pre-call state, so the device's stored
counter and last signature are untouched. -/
theorem claim_C3_sign_failure_no_mutation (σ : SysState) (opts : SignDataOptions)
    (p : Nat) (hp : mapLookup σ.store opts.DeviceID = some p)
    (hfail : (deref σ p).Signer
      (intToDecimal (deref σ p).SignatureCounter ++ [usep] ++ opts.Data ++ [usep] ++
        (deref σ p).LastSignature) = none) :
    SignData σ opts = (.error .signingFailed, σ) := by
  have hfail₂ : (deref σ p).Signer
      (intToDecimal (deref σ p).SignatureCounter ++
        usep :: (opts.Data ++ usep :: (deref σ p).LastSignature)) = none := by
    simpa using hfail
  simp [SignData, InMemoryStorage.GetDevice, hp, hfail₂]

/-- Witness for C3: a stored device whose signer always fails. -/
theorem claim_C3_witness :
    mapLookup (⟨[⟨[100], [], strRSA, 0, [90], 0, 0, fun _ => none⟩],
                [([100], 0)]⟩ : SysState).store [100] = some 0 ∧
    SignData ⟨[⟨[100], [], strRSA, 0, [90], 0, 0, fun _ => none⟩], [([100], 0)]⟩
      ⟨[100], [5]⟩ =
      (.error .signingFailed,
       ⟨[⟨[100], [], strRSA, 0, [90], 0, 0, fun _ => none⟩], [([100], 0)]⟩) :=
  ⟨rfl, claim_C3_sign_failure_no_mutation _ ⟨[100], [5]⟩ 0 rfl rfl⟩

/-- Claim C8: for an id not present in storage, the storage `GetDevice`
fails with `NotFound` and the service `signData` fails with
`DeviceNotFound`; neither call mutates stored state (`GetDevice` is
read-only by construction and `signData` returns the state unchanged). -/
theorem claim_C8_absent_id (σ : SysState) (id data : GoStr)
    (h : mapLookup σ.store id = none) :
    InMemoryStorage.GetDevice σ id = .error .notFound ∧
    SignData σ ⟨id, data⟩ = (.error .deviceNotFound, σ) := by
  constructor
  · simp [InMemoryStorage.GetDevice, h]
  · simp [SignData, InMemoryStorage.GetDevice, h]

/-- Witness for C8 on the empty storage state. -/
theorem claim_C8_witness :
    mapLookup emptyState.store [100] = none ∧
    InMemoryStorage.GetDevice emptyState [100] = .error .notFound ∧
    SignData emptyState ⟨[100], [1]⟩ = (.error .deviceNotFound, emptyState) :=
  ⟨rfl, claim_C8_absent_id emptyState [100] [1] rfl⟩

/-- Claim C10: the core validates neither the id nor the label: any
`createDevice` call with algorithm `RSA` or `ECC` succeeds whenever key
generation succeeds and the id is free (so `Save` succeeds), for every id
and label including the empty string; the empty id yields the empty
genesis `lastSignature` (base64 of zero bytes). The error type of the
embedding has no invalid-input variant at all, matching the absence of
any id/label validation in the source. -/
theorem claim_C10_no_input_validation (env : KeyGenEnv) (σ : SysState)
    (id label alg : GoStr)
    (halg : alg = strRSA ∨ alg = strECC)
    (hgen : (if alg = strRSA then env.rsaGenerate else env.eccGenerate).isSome)
    (hsave : mapLookup σ.store id = none) :
    ∃ p, (CreateDevice env σ ⟨id, label, alg⟩).1 = .ok p ∧
      (id = [] →
        (deref (CreateDevice env σ ⟨id, label, alg⟩).2 p).LastSignature = []) := by
  rcases halg with h1 | h1
  · rw [if_pos h1] at hgen
    obtain ⟨kp, hkp⟩ := Option.isSome_iff_exists.mp hgen
    refine ⟨σ.heap.length, ?_, ?_⟩
    · rw [createDevice_rsa_ok env σ ⟨id, label, alg⟩ kp h1 hkp hsave]
    · intro hid
      rw [createDevice_rsa_ok env σ ⟨id, label, alg⟩ kp h1 hkp hsave]
      simp [deref, getD_concat, mkDevice, hid, base64Encode]
  · have hne : alg ≠ strRSA := by rw [h1]; decide
    rw [if_neg hne] at hgen
    obtain ⟨kp, hkp⟩ := Option.isSome_iff_exists.mp hgen
    refine ⟨σ.heap.length, ?_, ?_⟩
    · rw [createDevice_ecc_ok env σ ⟨id, label, alg⟩ kp h1 hkp hsave]
    · intro hid
      rw [createDevice_ecc_ok env σ ⟨id, label, alg⟩ kp h1 hkp hsave]
      simp [deref, getD_concat, mkDevice, hid, base64Encode]

/-- Witness for C10 at the empty id and empty label. -/
theorem claim_C10_witness :
    ([] = strRSA ∨ ([] : GoStr) = strECC ∨ True) ∧
    (∃ p, (CreateDevice
      envW
      emptyState ⟨[], [], strRSA⟩).1 = .ok p ∧
      (([] : GoStr) = [] →
        (deref (CreateDevice
          envW
          emptyState ⟨[], [], strRSA⟩).2 p).LastSignature = [])) :=
  ⟨Or.inr (Or.inr trivial),
   claim_C10_no_input_validation envW emptyState [] [] strRSA (Or.inl rfl) (by decide) rfl⟩

/-- Claim C4: when a `createDevice` call succeeded for an id, a second
`createDevice` call with the same id (well-formed: recognized algorithm,
successful key generation) fails with the `AlreadyExists` conflict from
`Save`; the stored binding still points at the first device and the first
device's record — label, algorithm, counter, last signature and key
material — is bit-for-bit unchanged. -/
theorem claim_C4_duplicate_id_conflict (env₁ env₂ : KeyGenEnv) (σ : SysState)
    (opts₁ opts₂ : CreateDeviceOptions) (p : Nat)
    (h1 : (CreateDevice env₁ σ opts₁).1 = .ok p)
    (hid : opts₂.ID = opts₁.ID)
    (halg₂ : opts₂.Algorithm = strRSA ∨ opts₂.Algorithm = strECC)
    (hgen₂ : (if opts₂.Algorithm = strRSA then env₂.rsaGenerate
              else env₂.eccGenerate).isSome) :
    (CreateDevice env₂ (CreateDevice env₁ σ opts₁).2 opts₂).1 =
      .error (.saveFailed .alreadyExists) ∧
    (CreateDevice env₂ (CreateDevice env₁ σ opts₁).2 opts₂).2.store =
      (CreateDevice env₁ σ opts₁).2.store ∧
    mapLookup (CreateDevice env₂ (CreateDevice env₁ σ opts₁).2 opts₂).2.store
      opts₁.ID = some p ∧
    deref (CreateDevice env₂ (CreateDevice env₁ σ opts₁).2 opts₂).2 p =
      deref (CreateDevice env₁ σ opts₁).2 p := by
  obtain ⟨hp, habs, pub, priv, sgn, hσ⟩ := createDevice_ok_inv env₁ σ opts₁ p h1
  have hdup : mapLookup (CreateDevice env₁ σ opts₁).2.store opts₂.ID = some p := by
    rw [hσ, hid, hp]
    rw [mapLookup_append]
    simp [habs, mapLookup]
  have hlen : p < (CreateDevice env₁ σ opts₁).2.heap.length := by
    rw [hσ, hp]; simp
  rcases halg₂ with h2 | h2
  · rw [if_pos h2] at hgen₂
    obtain ⟨kp, hkp⟩ := Option.isSome_iff_exists.mp hgen₂
    rw [createDevice_rsa_dup env₂ _ opts₂ kp p h2 hkp hdup]
    refine ⟨rfl, rfl, ?_, ?_⟩
    · rw [← hid]; exact hdup
    · simp only [deref]
      exact getD_append_lt _ _ p _ hlen
  · have hne : opts₂.Algorithm ≠ strRSA := by rw [h2]; decide
    rw [if_neg hne] at hgen₂
    obtain ⟨kp, hkp⟩ := Option.isSome_iff_exists.mp hgen₂
    rw [createDevice_ecc_dup env₂ _ opts₂ kp p h2 hkp hdup]
    refine ⟨rfl, rfl, ?_, ?_⟩
    · rw [← hid]; exact hdup
    · simp only [deref]
      exact getD_append_lt _ _ p _ hlen

/-- Witness for C4: create `"d"` twice (RSA then ECC). -/
theorem claim_C4_witness :
    (CreateDevice
      envW
      emptyState ⟨[100], [], strRSA⟩).1 = .ok 0 ∧
    (CreateDevice
      envW
      (CreateDevice
        envW
        emptyState ⟨[100], [], strRSA⟩).2 ⟨[100], [108], strECC⟩).1 =
      .error (.saveFailed .alreadyExists) :=
  ⟨rfl,
   (claim_C4_duplicate_id_conflict envW envW emptyState ⟨[100], [], strRSA⟩
     ⟨[100], [108], strECC⟩ 0 rfl rfl (Or.inr rfl) (by decide)).1⟩

end SigningService

namespace SigningService

theorem bump_counter (d : SignatureDevice) (s : GoStr) :
    (bump d s).SignatureCounter = d.SignatureCounter + 1 := rfl

theorem bump_ID (d : SignatureDevice) (s : GoStr) : (bump d s).ID = d.ID := rfl

theorem bump_lastSig (d : SignatureDevice) (s : GoStr) :
    (bump d s).LastSignature = base64Encode s := rfl

theorem signChain_cons_none (d : SignatureDevice) (a : GoStr) (rest : List GoStr)
    (hs : d.Signer (intToDecimal d.SignatureCounter ++ [usep] ++ a ++ [usep] ++
      d.LastSignature) = none) :
    signChain d (a :: rest) =
      (.error .signingFailed :: (signChain d rest).1, (signChain d rest).2) := by
  simp only [signChain]
  rw [hs]

theorem signChain_cons_some (d : SignatureDevice) (a : GoStr) (rest : List GoStr)
    (s : GoStr)
    (hs : d.Signer (intToDecimal d.SignatureCounter ++ [usep] ++ a ++ [usep] ++
      d.LastSignature) = some s) :
    signChain d (a :: rest) =
      (.ok ⟨base64Encode s,
            intToDecimal d.SignatureCounter ++ [usep] ++ a ++ [usep] ++ d.LastSignature⟩ ::
        (signChain (bump d s) rest).1,
       (signChain (bump d s) rest).2) := by
  simp only [signChain]
  rw [hs]
  rfl

theorem signChain_length (datas : List GoStr) : ∀ d : SignatureDevice,
    (signChain d datas).1.length = datas.length := by
  induction datas with
  | nil => intro d; rfl
  | cons a rest ih =>
    intro d
    cases hs : d.Signer (intToDecimal d.SignatureCounter ++ [usep] ++ a ++ [usep] ++
        d.LastSignature) with
    | none => rw [signChain_cons_none d a rest hs]; simp [ih]
    | some s => rw [signChain_cons_some d a rest s hs]; simp [ih]

theorem signChain_append (l₁ l₂ : List GoStr) : ∀ d : SignatureDevice,
    signChain d (l₁ ++ l₂) =
      ((signChain d l₁).1 ++ (signChain (signChain d l₁).2 l₂).1,
       (signChain (signChain d l₁).2 l₂).2) := by
  induction l₁ with
  | nil => intro d; rfl
  | cons a rest ih =>
    intro d
    rw [List.cons_append]
    cases hs : d.Signer (intToDecimal d.SignatureCounter ++ [usep] ++ a ++ [usep] ++
        d.LastSignature) with
    | none =>
      rw [signChain_cons_none d a (rest ++ l₂) hs, signChain_cons_none d a rest hs, ih]
      rfl
    | some s =>
      rw [signChain_cons_some d a (rest ++ l₂) s hs, signChain_cons_some d a rest s hs, ih]
      rfl

theorem signN_single (datas : List GoStr) : ∀ d : SignatureDevice,
    signN ⟨[d], [(d.ID, 0)]⟩ d.ID datas =
      ((signChain d datas).1, ⟨[(signChain d datas).2], [(d.ID, 0)]⟩) := by
  induction datas with
  | nil => intro d; rfl
  | cons a rest ih =>
    intro d
    cases hs : d.Signer (intToDecimal d.SignatureCounter ++ [usep] ++ a ++ [usep] ++
        d.LastSignature) with
    | none =>
      have hs₂ : d.Signer (intToDecimal d.SignatureCounter ++
          usep :: (a ++ usep :: d.LastSignature)) = none := by simpa using hs
      rw [signChain_cons_none d a rest hs]
      simp [signN, SignData, InMemoryStorage.GetDevice,
            InMemoryStorage.Update, deref, mapLookup, mapInsert, hs₂, ih]
    | some s =>
      have hs₂ : d.Signer (intToDecimal d.SignatureCounter ++
          usep :: (a ++ usep :: d.LastSignature)) = some s := by simpa using hs
      rw [signChain_cons_some d a rest s hs]
      have ihb := ih (bump d s)
      rw [bump_ID] at ihb
      simp [signN, SignData, InMemoryStorage.GetDevice,
            InMemoryStorage.Update, deref, mapLookup, mapInsert, hs₂, bump] at ihb ⊢
      rw [ihb]
      exact ⟨rfl, rfl⟩

theorem signChain_spec (datas : List GoStr) : ∀ d : SignatureDevice,
    (∀ r ∈ (signChain d datas).1, isOk r) →
    (∀ k, k < datas.length →
      respAt (signChain d datas).1 k =
        .ok ⟨sigAt (signChain d datas).1 k, payAt (signChain d datas).1 k⟩ ∧
      payAt (signChain d datas).1 k =
        intToDecimal (d.SignatureCounter + k) ++ [usep] ++ datas.getD k [] ++ [usep] ++
          (if k = 0 then d.LastSignature else sigAt (signChain d datas).1 (k - 1))) ∧
    (signChain d datas).2.SignatureCounter = d.SignatureCounter + datas.length ∧
    (signChain d datas).2.ID = d.ID ∧
    (datas ≠ [] → (signChain d datas).2.LastSignature =
      sigAt (signChain d datas).1 (datas.length - 1)) := by
  induction datas with
  | nil =>
    intro d hall
    refine ⟨fun k hk => absurd hk (by simp), by simp [signChain], rfl,
            fun h => absurd rfl h⟩
  | cons a rest ih =>
    intro d hall
    cases hs : d.Signer (intToDecimal d.SignatureCounter ++ [usep] ++ a ++ [usep] ++
        d.LastSignature) with
    | none =>
      exfalso
      have : isOk (.error .signingFailed) := by
        apply hall
        rw [signChain_cons_none d a rest hs]
        exact List.mem_cons_self _ _
      exact this
    | some s =>
      have hrs : (signChain d (a :: rest)).1 =
          .ok ⟨base64Encode s, intToDecimal d.SignatureCounter ++ [usep] ++ a ++ [usep] ++
            d.LastSignature⟩ :: (signChain (bump d s) rest).1 := by
        rw [signChain_cons_some d a rest s hs]
      have hdv : (signChain d (a :: rest)).2 = (signChain (bump d s) rest).2 := by
        rw [signChain_cons_some d a rest s hs]
      have hall₂ : ∀ r ∈ (signChain (bump d s) rest).1, isOk r := by
        intro r hr
        apply hall
        rw [hrs]
        exact List.mem_cons_of_mem _ hr
      obtain ⟨ihp, ihc, ihid, ihlast⟩ := ih (bump d s) hall₂
      refine ⟨?_, ?_, ?_, ?_⟩
      · intro k hk
        cases k with
        | zero =>
          refine ⟨by rw [hrs]; rfl, ?_⟩
          rw [hrs]
          have h0 : d.SignatureCounter + ((0 : Nat) : Int) = d.SignatureCounter := by
            push_cast; ring
          rw [h0]
          rfl
        | succ m =>
          have hm : m < rest.length := by simpa using hk
          obtain ⟨ihr, ihpay⟩ := ihp m hm
          refine ⟨?_, ?_⟩
          · rw [hrs]; exact ihr
          · rw [hrs]
            show payAt (signChain (bump d s) rest).1 m = _
            rw [ihpay]
            have hcnt : (bump d s).SignatureCounter + (m : Int) =
                d.SignatureCounter + ((m + 1 : Nat) : Int) := by
              rw [bump_counter]
              push_cast; ring
            rw [hcnt]
            cases m with
            | zero => rfl
            | succ j => rfl
      · rw [hdv, ihc, bump_counter]
        simp only [List.length_cons]
        push_cast; ring
      · rw [hdv, ihid, bump_ID]
      · intro _
        rw [hdv]
        by_cases hrest : rest = []
        · subst hrest
          rw [hrs]
          rfl
        · rw [ihlast hrest, hrs]
          have hlp : (a :: rest).length - 1 = (rest.length - 1) + 1 := by
            have : rest.length ≠ 0 := by simpa [List.length_eq_zero] using hrest
            simp only [List.length_cons]
            omega
          rw [hlp]
          rfl

end SigningService

namespace SigningService

theorem respAt_append_lt (l₁ l₂ : List (Except ServiceError SignDataResponse))
    (k : Nat) (hk : k < l₁.length) : respAt (l₁ ++ l₂) k = respAt l₁ k := by
  unfold respAt
  exact getD_append_lt l₁ l₂ k _ hk

theorem sigAt_append_lt (l₁ l₂ : List (Except ServiceError SignDataResponse))
    (k : Nat) (hk : k < l₁.length) : sigAt (l₁ ++ l₂) k = sigAt l₁ k := by
  unfold sigAt
  rw [respAt_append_lt l₁ l₂ k hk]

theorem payAt_append_lt (l₁ l₂ : List (Except ServiceError SignDataResponse))
    (k : Nat) (hk : k < l₁.length) : payAt (l₁ ++ l₂) k = payAt l₁ k := by
  unfold payAt
  rw [respAt_append_lt l₁ l₂ k hk]

/-- Claim C1: for every device created by a successful `createDevice` on
an empty store and every sequence of N sequential successful `signData`
calls on it, each signed payload is built from the pre-increment counter:
the counter embedded in the k-th returned `signedData` is exactly k (so
the N payloads carry 0, 1, …, N−1 in call order), and the stored
`signatureCounter` after the N calls is exactly N. -/
theorem claim_C1_preincrement_counters (env : KeyGenEnv) (opts : CreateDeviceOptions)
    (datas : List GoStr) (p : Nat)
    (hc : (CreateDevice env emptyState opts).1 = .ok p)
    (hall : ∀ r ∈ (signN (CreateDevice env emptyState opts).2 opts.ID datas).1, isOk r) :
    (∀ k, k < datas.length → ∃ tail,
      payAt (signN (CreateDevice env emptyState opts).2 opts.ID datas).1 k =
        intToDecimal (k : Int) ++ [usep] ++ tail) ∧
    (deref (signN (CreateDevice env emptyState opts).2 opts.ID datas).2 p).SignatureCounter
      = (datas.length : Int) := by
  obtain ⟨hp, -, pub, priv, sgn, hσ⟩ := createDevice_ok_inv env emptyState opts p hc
  have hp0 : p = 0 := hp
  subst hp0
  have hσ₂ : (CreateDevice env emptyState opts).2 =
      ⟨[mkDevice opts pub priv sgn], [(opts.ID, 0)]⟩ := by rw [hσ]; rfl
  have hbridge : signN (⟨[mkDevice opts pub priv sgn], [(opts.ID, 0)]⟩ : SysState)
      opts.ID datas =
      ((signChain (mkDevice opts pub priv sgn) datas).1,
       ⟨[(signChain (mkDevice opts pub priv sgn) datas).2], [(opts.ID, 0)]⟩) :=
    signN_single datas (mkDevice opts pub priv sgn)
  rw [hσ₂, hbridge] at hall ⊢
  have hall₂ : ∀ r ∈ (signChain (mkDevice opts pub priv sgn) datas).1, isOk r := hall
  obtain ⟨hpay, hcnt, -, -⟩ := signChain_spec datas (mkDevice opts pub priv sgn) hall₂
  constructor
  · intro k hk
    obtain ⟨-, hpk⟩ := hpay k hk
    refine ⟨datas.getD k [] ++ [usep] ++
      (if k = 0 then (mkDevice opts pub priv sgn).LastSignature
       else sigAt (signChain (mkDevice opts pub priv sgn) datas).1 (k - 1)), ?_⟩
    have hzero : (mkDevice opts pub priv sgn).SignatureCounter + (k : Int) = (k : Int) := by
      show (0 : Int) + (k : Int) = (k : Int)
      ring
    rw [hpk, hzero]
    simp [List.append_assoc]
  · show (signChain (mkDevice opts pub priv sgn) datas).2.SignatureCounter = _
    rw [hcnt]
    show (0 : Int) + (datas.length : Int) = _
    ring

/-- Witness for C1: two successful calls on an RSA device; the stored
counter ends at 2. -/
theorem claim_C1_witness :
    (∀ r ∈ (signN (CreateDevice envW emptyState ⟨[100, 49], [], strRSA⟩).2 [100, 49]
      [[116, 120, 49], [116, 120, 50]]).1, isOk r) ∧
    (deref (signN (CreateDevice envW emptyState ⟨[100, 49], [], strRSA⟩).2 [100, 49]
      [[116, 120, 49], [116, 120, 50]]).2 0).SignatureCounter = 2 :=
  ⟨by decide,
   (claim_C1_preincrement_counters envW ⟨[100, 49], [], strRSA⟩
     [[116, 120, 49], [116, 120, 50]] 0 rfl (by decide)).2⟩

end SigningService

namespace SigningService

/-- Claim C2: for every device created by a successful `createDevice` on
an empty store, on the k-th (0-indexed) successful `signData` call the
returned `signedData` is exactly `"{k}_{dataK}_{prev}"` where `prev` is
the base64 signature returned by call k−1 (the base64 of the device id
for k = 0), and after the call the stored `lastSignature` equals the
base64 signature that call returned. -/
theorem claim_C2_chaining (env : KeyGenEnv) (opts : CreateDeviceOptions)
    (datas : List GoStr) (p : Nat)
    (hc : (CreateDevice env emptyState opts).1 = .ok p)
    (hall : ∀ r ∈ (signN (CreateDevice env emptyState opts).2 opts.ID datas).1, isOk r) :
    ∀ k, k < datas.length →
      respAt (signN (CreateDevice env emptyState opts).2 opts.ID datas).1 k =
        .ok ⟨sigAt (signN (CreateDevice env emptyState opts).2 opts.ID datas).1 k,
             payAt (signN (CreateDevice env emptyState opts).2 opts.ID datas).1 k⟩ ∧
      payAt (signN (CreateDevice env emptyState opts).2 opts.ID datas).1 k =
        intToDecimal (k : Int) ++ [usep] ++ datas.getD k [] ++ [usep] ++
          (if k = 0 then base64Encode opts.ID
           else sigAt (signN (CreateDevice env emptyState opts).2 opts.ID datas).1 (k - 1)) ∧
      (deref (signN (CreateDevice env emptyState opts).2 opts.ID
        (datas.take (k + 1))).2 p).LastSignature =
        sigAt (signN (CreateDevice env emptyState opts).2 opts.ID datas).1 k := by
  obtain ⟨hp, -, pub, priv, sgn, hσ⟩ := createDevice_ok_inv env emptyState opts p hc
  have hp0 : p = 0 := hp
  subst hp0
  have hσ₂ : (CreateDevice env emptyState opts).2 =
      ⟨[mkDevice opts pub priv sgn], [(opts.ID, 0)]⟩ := by rw [hσ]; rfl
  have hbridge : signN (⟨[mkDevice opts pub priv sgn], [(opts.ID, 0)]⟩ : SysState)
      opts.ID datas =
      ((signChain (mkDevice opts pub priv sgn) datas).1,
       ⟨[(signChain (mkDevice opts pub priv sgn) datas).2], [(opts.ID, 0)]⟩) :=
    signN_single datas (mkDevice opts pub priv sgn)
  rw [hσ₂, hbridge] at hall ⊢
  have hall₂ : ∀ r ∈ (signChain (mkDevice opts pub priv sgn) datas).1, isOk r := hall
  obtain ⟨hpay, -, -, -⟩ := signChain_spec datas (mkDevice opts pub priv sgn) hall₂
  intro k hk
  obtain ⟨hrk, hpk⟩ := hpay k hk
  have hzero : (mkDevice opts pub priv sgn).SignatureCounter + (k : Int) = (k : Int) := by
    show (0 : Int) + (k : Int) = (k : Int)
    ring
  refine ⟨hrk, ?_, ?_⟩
  · rw [hpk, hzero]
    rfl
  · -- prefix run: state after the first k+1 calls
    have hbridgeT : signN (⟨[mkDevice opts pub priv sgn], [(opts.ID, 0)]⟩ : SysState)
        opts.ID (datas.take (k + 1)) =
        ((signChain (mkDevice opts pub priv sgn) (datas.take (k + 1))).1,
         ⟨[(signChain (mkDevice opts pub priv sgn) (datas.take (k + 1))).2],
          [(opts.ID, 0)]⟩) :=
      signN_single (datas.take (k + 1)) (mkDevice opts pub priv sgn)
    rw [hbridgeT]
    have happ := signChain_append (datas.take (k + 1)) (datas.drop (k + 1))
      (mkDevice opts pub priv sgn)
    rw [List.take_append_drop] at happ
    have h1 : (signChain (mkDevice opts pub priv sgn) datas).1 =
        (signChain (mkDevice opts pub priv sgn) (datas.take (k + 1))).1 ++
        (signChain (signChain (mkDevice opts pub priv sgn) (datas.take (k + 1))).2
          (datas.drop (k + 1))).1 := by rw [happ]
    have hlenT : (datas.take (k + 1)).length = k + 1 := by
      rw [List.length_take]
      omega
    have hallT : ∀ r ∈ (signChain (mkDevice opts pub priv sgn) (datas.take (k + 1))).1,
        isOk r := by
      intro r hr
      apply hall₂
      rw [h1]
      exact List.mem_append_left _ hr
    obtain ⟨-, -, -, hlastT⟩ :=
      signChain_spec (datas.take (k + 1)) (mkDevice opts pub priv sgn) hallT
    have htne : datas.take (k + 1) ≠ [] := by
      intro hcon
      rw [hcon] at hlenT
      simp at hlenT
    have hchainlen : (signChain (mkDevice opts pub priv sgn) (datas.take (k + 1))).1.length
        = k + 1 := by
      rw [signChain_length, hlenT]
    show (signChain (mkDevice opts pub priv sgn) (datas.take (k + 1))).2.LastSignature = _
    rw [hlastT htne, hlenT]
    rw [h1, sigAt_append_lt _ _ k (by omega)]
    norm_num

/-- Witness for C2: the second of two calls chains to the first call's
returned signature, and the stored last signature after the two calls is
the second call's signature. -/
theorem claim_C2_witness :
    respAt (signN (CreateDevice envW emptyState ⟨[100, 49], [], strRSA⟩).2 [100, 49]
      [[116, 120, 49], [116, 120, 50]]).1 1 =
      .ok ⟨sigAt (signN (CreateDevice envW emptyState ⟨[100, 49], [], strRSA⟩).2 [100, 49]
             [[116, 120, 49], [116, 120, 50]]).1 1,
           payAt (signN (CreateDevice envW emptyState ⟨[100, 49], [], strRSA⟩).2 [100, 49]
             [[116, 120, 49], [116, 120, 50]]).1 1⟩ ∧
    payAt (signN (CreateDevice envW emptyState ⟨[100, 49], [], strRSA⟩).2 [100, 49]
      [[116, 120, 49], [116, 120, 50]]).1 1 =
      intToDecimal (1 : Int) ++ [usep] ++
        [[116, 120, 49], [116, 120, 50]].getD 1 [] ++ [usep] ++
        (if 1 = 0 then base64Encode [100, 49]
         else sigAt (signN (CreateDevice envW emptyState ⟨[100, 49], [], strRSA⟩).2 [100, 49]
           [[116, 120, 49], [116, 120, 50]]).1 0) ∧
    (deref (signN (CreateDevice envW emptyState ⟨[100, 49], [], strRSA⟩).2 [100, 49]
      ([[116, 120, 49], [116, 120, 50]].take 2)).2 0).LastSignature =
      sigAt (signN (CreateDevice envW emptyState ⟨[100, 49], [], strRSA⟩).2 [100, 49]
        [[116, 120, 49], [116, 120, 50]]).1 1 :=
  claim_C2_chaining envW ⟨[100, 49], [], strRSA⟩ [[116, 120, 49], [116, 120, 50]] 0
    rfl (by decide) 1 (by decide)

end SigningService

namespace SigningService

theorem foldl_append_snd (l : List (GoStr × Nat)) (acc : List Nat) :
    l.foldl (fun a kv => a ++ [kv.2]) acc = acc ++ l.map Prod.snd := by
  induction l generalizing acc with
  | nil => simp
  | cons kv rest ih => simp [ih]

/-- Counterexample to claim C9 as stated: `GetAllDevices` returns a fresh
slice whose elements are the *stored* device pointers, so mutating a
field through an element of the returned collection is visible in the
stored record. Concretely: one stored device with label `L`; the returned
collection is `[0]` (the stored pointer itself); writing label `M`
through that returned pointer changes the record the storage map still
references from label `L` to label `M` — the stored state is not left
unchanged, refuting the claimed element-level independence. -/
theorem claim_C9_counterexample :
    InMemoryStorage.GetAllDevices
      ⟨[⟨[100], [76], strRSA, 0, [90], 0, 0, fun _ => none⟩], [([100], 0)]⟩ = [0] ∧
    mapLookup (⟨[⟨[100], [76], strRSA, 0, [90], 0, 0, fun _ => none⟩],
      [([100], 0)]⟩ : SysState).store [100] = some 0 ∧
    (deref ⟨[⟨[100], [76], strRSA, 0, [90], 0, 0, fun _ => none⟩], [([100], 0)]⟩ 0).Label
      = [76] ∧
    mapLookup (writeLabelThrough
      ⟨[⟨[100], [76], strRSA, 0, [90], 0, 0, fun _ => none⟩], [([100], 0)]⟩
      0 [77]).store [100] = some 0 ∧
    (deref (writeLabelThrough
      ⟨[⟨[100], [76], strRSA, 0, [90], 0, 0, fun _ => none⟩], [([100], 0)]⟩
      0 [77]) 0).Label = [77] :=
  ⟨rfl, rfl, rfl, rfl, rfl⟩

/-- Claim C9 amended: `GetAllDevices` builds a freshly allocated sequence
(so mutating the sequence itself never affects storage, and it is the
empty sequence — not an error — when no devices exist), but its elements
are the stored device pointers themselves, shared with the storage map,
not deep copies. -/
theorem claim_C9_amended (σ : SysState) :
    InMemoryStorage.GetAllDevices σ = σ.store.map Prod.snd ∧
    (σ.store = [] → InMemoryStorage.GetAllDevices σ = []) := by
  constructor
  · unfold InMemoryStorage.GetAllDevices
    simpa using foldl_append_snd σ.store []
  · intro h
    unfold InMemoryStorage.GetAllDevices
    rw [h]
    rfl

/-- Witness for the amended C9 on a one-device state and the empty state. -/
theorem claim_C9_amended_witness :
    InMemoryStorage.GetAllDevices
      ⟨[⟨[100], [76], strRSA, 0, [90], 0, 0, fun _ => none⟩], [([100], 0)]⟩ =
      ([([100], 0)] : List (GoStr × Nat)).map Prod.snd ∧
    (emptyState.store = [] → InMemoryStorage.GetAllDevices emptyState = []) :=
  ⟨(claim_C9_amended
      ⟨[⟨[100], [76], strRSA, 0, [90], 0, 0, fun _ => none⟩], [([100], 0)]⟩).1,
   (claim_C9_amended emptyState).2⟩

end SigningService

namespace SigningService

theorem get_concat {α : Type} (l : List α) (a : α) (h : l.length < (l ++ [a]).length) :
    (l ++ [a]).get ⟨l.length, h⟩ = a := by
  induction l with
  | nil => rfl
  | cons x rest ih => exact ih (by simp)

theorem get_append_left {α : Type} (l₁ l₂ : List α) (m : Nat)
    (h : m < l₁.length) (h₂ : m < (l₁ ++ l₂).length) :
    (l₁ ++ l₂).get ⟨m, h₂⟩ = l₁.get ⟨m, h⟩ := by
  induction l₁ generalizing m with
  | nil => simp at h
  | cons x rest ih =>
    cases m with
    | zero => rfl
    | succ q => exact ih q (by simpa using h) (by simpa using h₂)

theorem readPhase_single (d : SignatureDevice) (devId dat : GoStr)
    (sf : GoStr → GoStr)
    (hsgn : d.Signer = fun x => some (sf x)) :
    readPhase ⟨[d], [(devId, 0)]⟩ devId dat =
      .mid 0 (intToDecimal d.SignatureCounter ++ [usep] ++ dat ++ [usep] ++
        d.LastSignature)
        (base64Encode (sf (intToDecimal d.SignatureCounter ++ [usep] ++ dat ++
          [usep] ++ d.LastSignature))) := by
  simp [readPhase, InMemoryStorage.GetDevice, mapLookup, deref, hsgn]

theorem commitSys_single (d : SignatureDevice) (devId sig : GoStr)
    (hid : d.ID = devId) :
    commitSys ⟨[d], [(devId, 0)]⟩ 0 sig = ⟨[commitDevice d sig], [(devId, 0)]⟩ := by
  simp [commitSys, InMemoryStorage.Update, deref, mapInsert, hid, commitDevice]

end SigningService

namespace SigningService

theorem inv_init {n : Nat} (devId : GoStr) (data : Fin n → GoStr)
    (sf : GoStr → GoStr) (d₀ : SignatureDevice)
    (hid : d₀.ID = devId) (hc0 : d₀.SignatureCounter = 0)
    (hsgn : d₀.Signer = fun x => some (sf x)) :
    Inv devId data sf (initCState n d₀) := by
  refine ⟨d₀, [], ?_, hid, hsgn, by simpa using hc0, List.nodup_nil, ?_, ?_, ?_⟩
  · simp [initCState, hid]
  · intro i
    constructor
    · rintro ⟨r, hr⟩
      exact absurd hr (by simp [initCState])
    · intro h
      exact absurd h (List.not_mem_nil i)
  · intro m hm
    exact absurd hm (by simp)
  · intro j
    simp [initCState, holdsLock]

theorem inv_preserved {n : Nat} (devId : GoStr) (data : Fin n → GoStr)
    (sf : GoStr → GoStr) (s s₂ : CState n)
    (hInv : Inv devId data sf s) (hstep : CStep devId data s s₂) :
    Inv devId data sf s₂ := by
  obtain ⟨d, order, hsys, hid, hsgn, hcnt, hnd, hdone, hpos, hlock⟩ := hInv
  cases hstep with
  | acquire i s hl ht =>
    rw [hl] at hlock
    have hph : readPhase s.sys devId (data i) =
        .mid 0 (intToDecimal d.SignatureCounter ++ [usep] ++ data i ++ [usep] ++
          d.LastSignature)
          (base64Encode (sf (intToDecimal d.SignatureCounter ++ [usep] ++ data i ++
            [usep] ++ d.LastSignature))) := by
      rw [hsys]
      exact readPhase_single d devId (data i) sf hsgn
    have hinotin : i ∉ order := by
      intro hmem
      obtain ⟨r, hr⟩ := (hdone i).mpr hmem
      rw [ht] at hr
      exact ThreadPhase.noConfusion hr
    refine ⟨d, order, hsys, hid, hsgn, hcnt, hnd, ?_, ?_, ?_⟩
    · intro j
      by_cases hj : j = i
      · subst hj
        rw [hph]
        constructor
        · rintro ⟨r, hr⟩
          simp only [Function.update_same] at hr
          exact absurd hr (by simp)
        · intro h
          exact absurd h hinotin
      · simp only [Function.update_noteq hj]
        exact hdone j
    · intro m hm
      have hne : order.get ⟨m, hm⟩ ≠ i := by
        intro he
        exact hinotin (he ▸ List.get_mem order m hm)
      simp only [Function.update_noteq hne]
      exact hpos m hm
    · rw [hph]
      simp only [if_pos trivial]
      constructor
      · simp only [Function.update_same, hph]
      · intro j hj
        by_cases hji : j = i
        · exact hji
        · rw [Function.update_noteq hji] at hj
          exact absurd hj (hlock j)
  | commit i s p pay sig hl ht =>
    rw [hl] at hlock
    obtain ⟨hmid, huniq⟩ := hlock
    rw [ht] at hmid
    injection hmid with hp hpay hsig
    subst hp hpay hsig
    have hinotin : i ∉ order := by
      intro hmem
      obtain ⟨r, hr⟩ := (hdone i).mpr hmem
      rw [ht] at hr
      exact ThreadPhase.noConfusion hr
    have hcs : commitSys s.sys 0
        (base64Encode (sf (intToDecimal d.SignatureCounter ++ [usep] ++ data i ++
          [usep] ++ d.LastSignature))) =
        ⟨[commitDevice d (base64Encode (sf (intToDecimal d.SignatureCounter ++
          [usep] ++ data i ++ [usep] ++ d.LastSignature)))], [(devId, 0)]⟩ := by
      rw [hsys]
      exact commitSys_single d devId _ hid
    refine ⟨commitDevice d (base64Encode (sf (intToDecimal d.SignatureCounter ++
        [usep] ++ data i ++ [usep] ++ d.LastSignature))),
      order ++ [i], hcs, hid, hsgn, ?_, ?_, ?_, ?_, ?_⟩
    · show d.SignatureCounter + 1 = _
      rw [hcnt]
      simp only [List.length_append, List.length_cons, List.length_nil]
      push_cast
      ring
    · simp [List.nodup_append, hnd, hinotin]
    · intro j
      by_cases hj : j = i
      · subst hj
        simp only [Function.update_same]
        constructor
        · intro _
          simp
        · intro _
          exact ⟨_, rfl⟩
      · simp only [Function.update_noteq hj]
        rw [hdone j]
        simp [hj]
    · intro m hm
      simp only [List.length_append, List.length_cons, List.length_nil] at hm
      by_cases hmlt : m < order.length
      · have hget : (order ++ [i]).get ⟨m, by simpa using hm⟩ = order.get ⟨m, hmlt⟩ := by
          exact get_append_left order [i] m hmlt (by simpa using hm)
        rw [hget]
        have hne : order.get ⟨m, hmlt⟩ ≠ i := by
          intro he
          exact hinotin (he ▸ List.get_mem order m hmlt)
        simp only [Function.update_noteq hne]
        exact hpos m hmlt
      · have hmeq : m = order.length := by omega
        subst hmeq
        have hget : (order ++ [i]).get ⟨order.length, by simp⟩ = i :=
          get_concat order i (by simp)
        rw [hget]
        simp only [Function.update_same]
        refine ⟨d.LastSignature, ?_⟩
        rw [hcnt]
    · show ∀ j : Fin n, ¬ holdsLock (Function.update s.threads i
        (ThreadPhase.done (.ok ⟨_, _⟩)) j)
      intro j
      by_cases hj : j = i
      · subst hj
        simp [holdsLock]
      · simp only [Function.update_noteq hj]
        intro hjm
        exact hj (huniq j hjm)

end SigningService

namespace SigningService

theorem inv_reach {n : Nat} (devId : GoStr) (data : Fin n → GoStr)
    (sf : GoStr → GoStr) (s₀ s : CState n)
    (hreach : Relation.ReflTransGen (CStep devId data) s₀ s)
    (h0 : Inv devId data sf s₀) : Inv devId data sf s := by
  induction hreach with
  | refl => exact h0
  | tail hab hbc ih => exact inv_preserved devId data sf _ _ ih hbc

/-- Claim C6: for a fixed fresh device and any number `n` of concurrently
issued `signData` calls, in every complete interleaved execution (any
scheduler choice respecting the service mutex) the stored
`signatureCounter` ends at exactly `n`, and there is a completion order —
a permutation of all `n` threads — in which the k-th completed call's
returned `signedData` embeds exactly the counter k: the multiset of
embedded counters is `{0, …, n−1}`, with no gaps and no duplicates. -/
theorem claim_C6_concurrent_counters {n : Nat} (devId : GoStr)
    (data : Fin n → GoStr) (sf : GoStr → GoStr) (d₀ : SignatureDevice)
    (s : CState n)
    (hid : d₀.ID = devId) (hc0 : d₀.SignatureCounter = 0)
    (hsgn : d₀.Signer = fun x => some (sf x))
    (hreach : Relation.ReflTransGen (CStep devId data) (initCState n d₀) s)
    (hdone : allDone s) :
    (deref s.sys 0).SignatureCounter = (n : Int) ∧
    ∃ order : List (Fin n), order.Perm (List.finRange n) ∧
      ∀ m : Nat, ∀ hm : m < order.length, ∃ tl : GoStr,
        s.threads (order.get ⟨m, hm⟩) =
          .done (.ok ⟨base64Encode (sf (intToDecimal (m : Int) ++ [usep] ++
                        data (order.get ⟨m, hm⟩) ++ [usep] ++ tl)),
                      intToDecimal (m : Int) ++ [usep] ++
                        data (order.get ⟨m, hm⟩) ++ [usep] ++ tl⟩) := by
  obtain ⟨d, order, hsys, -, -, hcnt, hnd, hdoneiff, hpos, -⟩ :=
    inv_reach devId data sf _ s hreach (inv_init devId data sf d₀ hid hc0 hsgn)
  have hall : ∀ i : Fin n, i ∈ order := fun i => (hdoneiff i).mp (hdone i)
  have hperm : order.Perm (List.finRange n) := by
    rw [List.perm_ext_iff_of_nodup hnd (List.nodup_finRange n)]
    intro a
    exact ⟨fun _ => List.mem_finRange a, fun _ => hall a⟩
  have hlen : order.length = n := by
    rw [hperm.length_eq, List.length_finRange]
  constructor
  · rw [hsys]
    show d.SignatureCounter = _
    rw [hcnt, hlen]
  · exact ⟨order, hperm, hpos⟩

end SigningService

namespace SigningService

/-- Witness for C6: one thread runs one `signData` call to completion
(acquire/read then commit/release); the stored counter ends at 1 and the
single payload embeds counter 0. -/
theorem claim_C6_witness :
    ∃ s : CState 1,
      Relation.ReflTransGen (CStep [100] (fun _ => [116]))
        (initCState 1 ⟨[100], [], strRSA, 0, [90, 65, 61, 61], 0, 0,
          fun _ => some [7]⟩) s ∧
      allDone s ∧
      ((deref s.sys 0).SignatureCounter = ((1 : Nat) : Int) ∧
       ∃ order : List (Fin 1), order.Perm (List.finRange 1) ∧
         ∀ m : Nat, ∀ hm : m < order.length, ∃ tl : GoStr,
           s.threads (order.get ⟨m, hm⟩) =
             .done (.ok ⟨base64Encode ((fun _ => [7])
                           (intToDecimal (m : Int) ++ [usep] ++
                             (fun _ : Fin 1 => [116]) (order.get ⟨m, hm⟩) ++ [usep] ++ tl)),
                         intToDecimal (m : Int) ++ [usep] ++
                           (fun _ : Fin 1 => [116]) (order.get ⟨m, hm⟩) ++ [usep] ++ tl⟩)) := by
  have h1 : CStep [100] (fun _ => [116])
      (initCState 1 ⟨[100], [], strRSA, 0, [90, 65, 61, 61], 0, 0, fun _ => some [7]⟩)
      ⟨⟨[⟨[100], [], strRSA, 0, [90, 65, 61, 61], 0, 0, fun _ => some [7]⟩],
        [([100], 0)]⟩, some 0,
       Function.update (fun _ => .start) 0
         (.mid 0 [48, 95, 116, 95, 90, 65, 61, 61] [66, 119, 61, 61])⟩ :=
    CStep.acquire 0 _ rfl rfl
  have h2 : CStep [100] (fun _ => [116])
      (⟨⟨[⟨[100], [], strRSA, 0, [90, 65, 61, 61], 0, 0, fun _ => some [7]⟩],
        [([100], 0)]⟩, some 0,
       Function.update (fun _ => .start) 0
         (.mid 0 [48, 95, 116, 95, 90, 65, 61, 61] [66, 119, 61, 61])⟩ : CState 1)
      ⟨⟨[⟨[100], [], strRSA, 1, [66, 119, 61, 61], 0, 0, fun _ => some [7]⟩],
        [([100], 0)]⟩, none,
       Function.update (Function.update (fun _ => .start) 0
         (.mid 0 [48, 95, 116, 95, 90, 65, 61, 61] [66, 119, 61, 61])) 0
         (.done (.ok ⟨[66, 119, 61, 61], [48, 95, 116, 95, 90, 65, 61, 61]⟩))⟩ :=
    CStep.commit 0 _ 0 [48, 95, 116, 95, 90, 65, 61, 61] [66, 119, 61, 61] rfl rfl
  have hreach := Relation.ReflTransGen.tail (Relation.ReflTransGen.single h1) h2
  have hdone : allDone
      (⟨⟨[⟨[100], [], strRSA, 1, [66, 119, 61, 61], 0, 0, fun _ => some [7]⟩],
        [([100], 0)]⟩, none,
       Function.update (Function.update (fun _ => .start) 0
         (.mid 0 [48, 95, 116, 95, 90, 65, 61, 61] [66, 119, 61, 61])) 0
         (.done (.ok ⟨[66, 119, 61, 61], [48, 95, 116, 95, 90, 65, 61, 61]⟩))⟩ :
        CState 1) := by
    intro i
    have hi : i = 0 := Subsingleton.elim i 0
    rw [hi]
    exact ⟨.ok ⟨[66, 119, 61, 61], [48, 95, 116, 95, 90, 65, 61, 61]⟩, rfl⟩
  exact ⟨_, hreach, hdone,
    claim_C6_concurrent_counters [100] (fun _ => [116]) (fun _ => [7])
      ⟨[100], [], strRSA, 0, [90, 65, 61, 61], 0, 0, fun _ => some [7]⟩ _
      rfl rfl rfl hreach hdone⟩

end SigningService
